import Mathlib

/-!
Verification of the nodecached in-memory cache and its wire-protocol parser.

The definitions below are a shallow embedding of the server code:
`lib/memory.js` (`Record`, `Cache` with its operations and purge passes) and
`lib/parser.js` together with the command dispatch of `lib/commands.js`.
Wall-clock time (`Date.now()`) is threaded explicitly as a `now : Int`
parameter in milliseconds, and the sampled resident-set size used by the
memory purge is threaded as a `usageMb` parameter, since both are
environment inputs of the program.
-/

/-- A value stored in the cache: wire payloads are strings, and `incr`/`decr`
store back plain numbers. -/
inductive Value where
  | str (s : String)
  | int (n : Int)
deriving DecidableEq, Repr

/-- Decimal-integer strings: an optional minus sign followed by at least one
digit. Used to model the external `prototypes.isNumber` test on strings, which
accepts exactly the strings that convert to a finite number; protocol values
exercised by `incr`/`decr` are decimal integers. -/
def isIntegerString (s : String) : Bool :=
  match s.toList with
  | '-' :: rest => !rest.isEmpty && rest.all Char.isDigit
  | l => !l.isEmpty && l.all Char.isDigit

/-- Decimal value of a digit list (most significant first). -/
def digitsToNat (l : List Char) : Nat :=
  l.foldl (fun n ch => 10 * n + (ch.toNat - 48)) 0

/-- Model of JavaScript `parseInt(s, 10)` on strings accepted by
`isIntegerString`. -/
def parseIntString (s : String) : Int :=
  match s.toList with
  | '-' :: rest => -(digitsToNat rest : Int)
  | l => (digitsToNat l : Int)

/-- Model of the external `prototypes.isNumber` used by `Cache.incr`:
numbers always pass; strings pass when they parse fully as a decimal
integer. -/
def Value.isNumber : Value → Bool
  | .int _ => true
  | .str s => isIntegerString s

/-- Model of `parseInt(record.value, 10)` as used by `Cache.incr`; only
consulted after `Value.isNumber` holds. -/
def Value.parseInt10 : Value → Int
  | .int n => n
  | .str s => parseIntString s

/-- The `MAX_RELATIVE_SECONDS` constant from lib/memory.js: thirty days in seconds. -/
def MAX_RELATIVE_SECONDS : Int := 60 * 60 * 24 * 30

/-- A record stored in the cache, as built by the `Record` constructor in
lib/memory.js. `expiration` is an absolute time in ms, with `0` meaning
"never expires". The `expirationSeconds` field models the extra object
property that `Cache.touch` assigns on an existing record; the constructor
never sets it and `isValid` never reads it. -/
structure Record where
  flags : Option Int
  expiration : Int
  value : Value
  expirationSeconds : Option Int := none
deriving DecidableEq, Repr

/-- The `Record` constructor from lib/memory.js. A zero (or absent, which
models JavaScript `undefined`/`NaN`, both falsy) expiration input leaves
`expiration = 0`; a nonzero input below `MAX_RELATIVE_SECONDS` is relative
to `now`; any other nonzero input is an absolute Unix timestamp in
seconds, stored in ms. -/
def Record.make (value : Value) (expSeconds : Option Int) (flags : Option Int)
    (now : Int) : Record :=
  let expiration : Int :=
    match expSeconds with
    | none => 0
    | some s =>
      if s ≠ 0 then
        if s < MAX_RELATIVE_SECONDS then now + 1000 * s else 1000 * s
      else 0
  { flags := flags, expiration := expiration, value := value }

/-- Validity check `Record.isValid` from lib/memory.js: a record with sentinel expiration 0
never expires; otherwise it is valid strictly before its expiration time. -/
def Record.isValid (r : Record) (now : Int) : Bool :=
  if r.expiration = 0 then true else now < r.expiration

/-- JavaScript object lookup `records[key]` on the cache's record map,
modelled as an association list in property-insertion order. -/
def getProperty (records : List (String × Record)) (key : String) :
    Option Record :=
  match records with
  | [] => none
  | p :: rest => if p.1 = key then some p.2 else getProperty rest key

/-- JavaScript object assignment `records[key] = r`: an existing key keeps
its position in iteration order, a new key is appended. -/
def setProperty (records : List (String × Record)) (key : String)
    (r : Record) : List (String × Record) :=
  match records with
  | [] => [(key, r)]
  | p :: rest =>
    if p.1 = key then (key, r) :: rest else p :: setProperty rest key r

/-- JavaScript `delete records[key]`. -/
def deleteProperty (records : List (String × Record)) (key : String) :
    List (String × Record) :=
  match records with
  | [] => []
  | p :: rest => if p.1 = key then rest else p :: deleteProperty rest key

/-- The in-memory cache from lib/memory.js. `maxRecords`/`maxSizeMb` are 0
when the corresponding bound is disabled. -/
structure Cache where
  records : List (String × Record) := []
  maxRecords : Nat := 0
  maxSizeMb : Nat := 0
  totalItems : Nat := 0
deriving DecidableEq, Repr

/-- Membership check `Cache.contains`: the key is present and its record is still valid. -/
def Cache.contains (c : Cache) (key : String) (now : Int) : Bool :=
  match getProperty c.records key with
  | none => false
  | some record => record.isValid now

/-- Lookup `Cache.get`: the stored value, or absent when the key is missing or the
record has expired. -/
def Cache.get (c : Cache) (key : String) (now : Int) : Option Value :=
  if !(c.contains key now) then none
  else (getProperty c.records key).map Record.value

/-- Store operation `Cache.set`: always stores a fresh record and bumps `totalItems`. The
purge pass the source schedules on `process.nextTick` is modelled by the
separate `Cache.purge` below, run after the mutating call returns. -/
def Cache.set (c : Cache) (key : String) (value : Value)
    (expSeconds : Option Int) (flags : Option Int) (now : Int) :
    Bool × Cache :=
  let record := Record.make value expSeconds flags now
  (true, { c with records := setProperty c.records key record,
                  totalItems := c.totalItems + 1 })

/-- Conditional store `Cache.add`: store only when the key is not already present and valid. -/
def Cache.add (c : Cache) (key : String) (value : Value)
    (expSeconds : Option Int) (flags : Option Int) (now : Int) :
    Bool × Cache :=
  if c.contains key now then (false, c)
  else c.set key value expSeconds flags now

/-- Conditional store `Cache.replace`: store only when the key is already present and valid. -/
def Cache.replace (c : Cache) (key : String) (value : Value)
    (expSeconds : Option Int) (flags : Option Int) (now : Int) :
    Bool × Cache :=
  if !(c.contains key now) then (false, c)
  else c.set key value expSeconds flags now

/-- Removal `Cache.delete`: remove the entry only when it is present and valid. -/
def Cache.delete (c : Cache) (key : String) (now : Int) : Bool × Cache :=
  if !(c.contains key now) then (false, c)
  else (true, { c with records := deleteProperty c.records key })

/-- Increment `Cache.incr` from lib/memory.js. Absent or expired key: `false`
(modelled `Except.ok none`). Non-numeric stored value: a thrown `Error`
(modelled `Except.error` with the source's message). Otherwise the parsed
value plus the amount, clamped below at 0, is stored back and returned. -/
def Cache.incr (c : Cache) (key : String) (value : Int) (now : Int) :
    Except String (Option Int) × Cache :=
  if !(c.contains key now) then (Except.ok none, c)
  else
    match getProperty c.records key with
    | none => (Except.ok none, c)
    | some record =>
      if !record.value.isNumber then
        (Except.error "cannot increment or decrement non-numeric value", c)
      else
        let original := record.value.parseInt10
        let result := original + value
        let result := if result < 0 then 0 else result
        let updated := { record with value := Value.int result }
        (Except.ok (some result),
         { c with records := setProperty c.records key updated })

/-- Decrement `Cache.decr` from lib/memory.js, literally `incr` with the negated
amount. -/
def Cache.decr (c : Cache) (key : String) (value : Int) (now : Int) :
    Except String (Option Int) × Cache :=
  c.incr key (-value) now

/-- Expiration update `Cache.touch` from lib/memory.js. On a present and valid record it
assigns the new object property `record.expirationSeconds` and returns
`true`; the record's `expiration` field is not written. Absent or expired
key: `false`, no change. -/
def Cache.touch (c : Cache) (key : String) (expSeconds : Option Int)
    (now : Int) : Bool × Cache :=
  if !(c.contains key now) then (false, c)
  else
    match getProperty c.records key with
    | none => (false, c)
    | some record =>
      let updated := { record with expirationSeconds := expSeconds }
      (true, { c with records := setProperty c.records key updated })

/-- Raw lookup `Cache.getRecord` from lib/memory.js: the bare map lookup, returning
even expired records. -/
def Cache.getRecord (c : Cache) (key : String) : Option Record :=
  getProperty c.records key

/-- Flush `Cache.flush`: empty the record map. -/
def Cache.flush (c : Cache) : Bool × Cache :=
  (true, { c with records := [] })

/-- The record-count purge loop from `purgeRecords`: delete entries in
iteration order, re-checking the count after each deletion. -/
def purgeRecordsLoop (records : List (String × Record)) (maxRecords : Nat) :
    List (String × Record) :=
  match records with
  | [] => []
  | _ :: rest =>
    if rest.length < maxRecords then rest
    else purgeRecordsLoop rest maxRecords

/-- Pass `purgeRecords` from lib/memory.js: do nothing while the count is below
`maxRecords`, otherwise delete in iteration order until it is. -/
def Cache.purgeRecords (c : Cache) : Cache :=
  if c.records.length < c.maxRecords then c
  else { c with records := purgeRecordsLoop c.records c.maxRecords }

/-- The second loop of `purgeMemory`: delete entries in iteration order,
re-checking `usageMb < maxSizeMb` after each deletion. `usageMb` is the
resident-set sample taken once at the top of `purgeMemory`; the source
never re-reads it. -/
def purgeMemoryLoop (records : List (String × Record))
    (usageMb maxSizeMb : Nat) : List (String × Record) :=
  match records with
  | [] => []
  | _ :: rest =>
    if usageMb < maxSizeMb then rest
    else purgeMemoryLoop rest usageMb maxSizeMb

/-- Pass `purgeMemory` from lib/memory.js. `usageMb` models the single
`process.memoryUsage().rss` sample: the source reads it once and compares
the same value in all three checks. Below the limit: no change. Otherwise
sweep out all invalid records, then (the stale re-check cannot pass) run
the deletion loop. -/
def Cache.purgeMemory (c : Cache) (usageMb : Nat) (now : Int) : Cache :=
  if usageMb < c.maxSizeMb then c
  else
    let swept := c.records.filter (fun p => p.2.isValid now)
    if usageMb < c.maxSizeMb then { c with records := swept }
    else { c with records := purgeMemoryLoop swept usageMb c.maxSizeMb }

/-- Scheduler target `purge` from lib/memory.js: the record-count pass when `maxRecords` is
set, then the memory pass when `maxSizeMb` is set. -/
def Cache.purge (c : Cache) (usageMb : Nat) (now : Int) : Cache :=
  let c1 := if c.maxRecords ≠ 0 then c.purgeRecords else c
  if c1.maxSizeMb ≠ 0 then c1.purgeMemory usageMb now else c1

/-- The positional argument types of lib/parser.js: `String`, `Number` and
`OptionalString`. -/
inductive ArgType where
  | TString
  | TNumber
  | TOptionalString
deriving DecidableEq, Repr

/-- Model of the JavaScript `Number(word)` conversion on protocol argument
words: `none` models `NaN` (a word that is not a decimal integer). -/
def jsNumber (word : String) : Option Int :=
  if isIntegerString word then some (parseIntString word) else none

/-- The `options` object a parsed header line produces: one optional slot
per parameter name occurring in the syntax tables. -/
structure Options where
  key : Option String := none
  flags : Option Int := none
  exptime : Option Int := none
  bytes : Option Int := none
  value : Option Int := none
  argument : Option String := none
deriving DecidableEq, Repr

/-- Assignment `options[name] = type(word)` from `readCommand`: store the converted
word under the parameter's slot. An absent word models JavaScript
`undefined` (possible only for `OptionalString`, whose conversion returns
`undefined` for a falsy argument). -/
def setOption (o : Options) (name : String) (t : ArgType)
    (word : Option String) : Options :=
  match name, t with
  | "key", .TString => { o with key := word }
  | "flags", .TNumber => { o with flags := word.bind jsNumber }
  | "exptime", .TNumber => { o with exptime := word.bind jsNumber }
  | "bytes", .TNumber => { o with bytes := word.bind jsNumber }
  | "value", .TNumber => { o with value := word.bind jsNumber }
  | "argument", .TOptionalString =>
    { o with argument := match word with
                         | none => none
                         | some w => if w = "" then none else some w }
  | _, _ => o

/-- Table `SET_SYNTAX` from lib/parser.js. -/
def SET_SYNTAX : List (String × ArgType) :=
  [("key", .TString), ("flags", .TNumber), ("exptime", .TNumber),
   ("bytes", .TNumber)]

/-- Table `GET_SYNTAX` from lib/parser.js. -/
def GET_SYNTAX : List (String × ArgType) := [("key", .TString)]

/-- Table `DELETE_SYNTAX` from lib/parser.js. -/
def DELETE_SYNTAX : List (String × ArgType) := [("key", .TString)]

/-- Table `INCR_SYNTAX` from lib/parser.js. -/
def INCR_SYNTAX : List (String × ArgType) :=
  [("key", .TString), ("value", .TNumber)]

/-- Table `TOUCH_SYNTAX` from lib/parser.js. -/
def TOUCH_SYNTAX : List (String × ArgType) :=
  [("key", .TString), ("exptime", .TNumber)]

/-- Table `STATS_SYNTAX` from lib/parser.js. -/
def STATS_SYNTAX : List (String × ArgType) := [("argument", .TOptionalString)]

/-- Table `QUIT_SYNTAX` from lib/parser.js (also used for `version`). -/
def QUIT_SYNTAX : List (String × ArgType) := []

/-- The `SYNTAXES` table of lib/parser.js: the only verbs with an entry.
`quit` is additionally special-cased in `readCommand` before the lookup. -/
def SYNTAXES : List (String × List (String × ArgType)) :=
  [("get", GET_SYNTAX), ("set", SET_SYNTAX), ("add", SET_SYNTAX),
   ("replace", SET_SYNTAX), ("delete", DELETE_SYNTAX), ("incr", INCR_SYNTAX),
   ("decr", INCR_SYNTAX), ("touch", TOUCH_SYNTAX), ("stats", STATS_SYNTAX),
   ("quit", QUIT_SYNTAX), ("version", QUIT_SYNTAX)]

/-- Lookup `SYNTAXES[command]`. -/
def lookupSyntax (table : List (String × List (String × ArgType)))
    (command : String) : Option (List (String × ArgType)) :=
  match table with
  | [] => none
  | p :: rest => if p.1 = command then some p.2 else lookupSyntax rest command

/-- The argument-consuming loop of `readCommand`: walk the syntax in order,
failing (`none`, surfaced as `CLIENT_ERROR bad command line format`) when a
required word is missing, and returning the filled options with the
unconsumed words. -/
def consumeArgs : List (String × ArgType) → List String → Options →
    Option (Options × List String)
  | [], words, o => some (o, words)
  | (name, t) :: rest, words, o =>
    if words.isEmpty ∧ t ≠ ArgType.TOptionalString then none
    else consumeArgs rest words.tail (setOption o name t words.head?)

/-- The per-connection parser state of lib/parser.js. -/
structure ParserState where
  command : Option String := none
  options : Option Options := none
  data : String := ""
  bytesRemaining : Int := 0
deriving DecidableEq, Repr

/-- State reset `reset()` from lib/parser.js: back to header mode with no buffered
data. -/
def ParserState.reset : ParserState :=
  { command := none, options := none, data := "", bytesRemaining := 0 }

/-- The interpreter the parser delegates to: `interpret(command, options,
data)` over the shared cache. `Except.error` models a thrown exception
propagating out of `interpret` (the parser catches it in header mode). -/
def Interp : Type :=
  Cache → Option String → Option Options → Option String →
  Except String String × Cache

/-- Helper for `splitWords`: walk the characters, accumulating the current
word in reverse; whitespace closes the current word. -/
def splitWordsAux : List Char → List Char → List String
  | [], acc => if acc.isEmpty then [] else [String.mk acc.reverse]
  | ch :: rest, acc =>
    if ch.isWhitespace then
      if acc.isEmpty then splitWordsAux rest []
      else String.mk acc.reverse :: splitWordsAux rest []
    else splitWordsAux rest (ch :: acc)

/-- Tokenisation `line.trim().split(/\s+/)` from `readCommand`: the list of nonempty
maximal whitespace-separated words (trimming first, so no empty tokens
arise). -/
def splitWords (line : String) : List String :=
  splitWordsAux line.toList []

/-- Header handler `readCommand` from lib/parser.js, after tokenisation. In order:
special-case `quit`; unknown verb answers `ERROR`; consume the arguments
(missing required word answers `CLIENT_ERROR bad command line format`);
leftover words answer `ERROR`; a truthy `options.bytes` switches to payload
mode (`pendingData`) with an empty response; otherwise the interpreter runs
under try/catch, a caught exception answering `CLIENT_ERROR ` plus the
exception message. -/
def readCommandWords (interp : Interp) (c : Cache) (p : ParserState)
    (words : List String) : Except String String × ParserState × Cache :=
  match words with
  | [] => (Except.ok "ERROR", p, c)
  | command :: rest =>
    if command = "quit" then (Except.ok "quit", p, c)
    else
      match lookupSyntax SYNTAXES command with
      | none => (Except.ok "ERROR", p, c)
      | some syn =>
        match consumeArgs syn rest {} with
        | none => (Except.ok "CLIENT_ERROR bad command line format", p, c)
        | some (options, remaining) =>
          if remaining ≠ [] then (Except.ok "ERROR", p, c)
          else if (options.bytes).getD 0 ≠ 0 then
            (Except.ok "",
             { p with command := some command, options := some options,
                      bytesRemaining := (options.bytes).getD 0 }, c)
          else
            match interp c (some command) (some options) none with
            | (Except.ok result, c2) => (Except.ok result, p, c2)
            | (Except.error msg, c2) =>
              (Except.ok ("CLIENT_ERROR " ++ msg), p, c2)

/-- Trimming `rightTrim` from lib/parser.js: when the line ends with the character,
drop that final character (the source tests `endsWith` and then takes
`substringUpToLast`, which on such a line removes exactly the final
character). -/
def rightTrim (line : String) (character : Char) : String :=
  match line.toList.getLast? with
  | some ch =>
    if ch = character then String.mk line.toList.dropLast else line
  | none => line

/-- Payload handler `readData` from lib/parser.js. A segment shorter than `bytesRemaining`
is buffered with no response. Otherwise the final segment is CRLF-trimmed;
if it is still longer than `bytesRemaining` the parser resets and answers
`CLIENT_ERROR bad data chunk` without consulting the interpreter; otherwise
the interpreter runs on the accumulated data and the parser resets. -/
def readData (interp : Interp) (c : Cache) (p : ParserState) (line : String) :
    Except String String × ParserState × Cache :=
  if (line.length : Int) < p.bytesRemaining then
    (Except.ok "",
     { p with data := p.data ++ line,
              bytesRemaining := p.bytesRemaining - line.length }, c)
  else
    let line := rightTrim line '\n'
    let line := rightTrim line '\r'
    if (line.length : Int) > p.bytesRemaining then
      (Except.ok "CLIENT_ERROR bad data chunk", ParserState.reset, c)
    else
      let data := p.data ++ line
      match interp c p.command p.options (some data) with
      | (result, c2) => (result, ParserState.reset, c2)

/-- Entry point `readLine` from lib/parser.js: header mode while no command is pending,
payload mode otherwise. -/
def readLine (interp : Interp) (c : Cache) (p : ParserState) (line : String) :
    Except String String × ParserState × Cache :=
  match p.command with
  | none => readCommandWords interp c p (splitWords line)
  | some _ => readData interp c p line

/-- The command names the lib/commands.js Interpreter defines as methods;
`interpret` answers `ERROR` for any other verb. -/
def interpreterCommands : List String :=
  ["get", "set", "add", "replace", "delete", "incr", "decr", "touch",
   "stats", "version"]

/-- The `incr`/`decr` path of lib/commands.js. `incrDecr` calls the cache
function with `options.key` and `options.value` and stringifies any
non-`false` result; `interpret` then maps a `false` result through
`resultMap.incr` to `NOT_FOUND`, and an unmapped (numeric string) result is
returned as is. A thrown cache exception propagates. The `getD` defaults
are never exercised: the wire syntax always fills both slots before this
runs. -/
def incrDecrCommand (c : Cache) (now : Int) (neg : Bool) (o : Options) :
    Except String String × Cache :=
  let key := (o.key).getD ""
  let amount := (o.value).getD 0
  match (if neg then c.decr key amount now else c.incr key amount now) with
  | (Except.error msg, c2) => (Except.error msg, c2)
  | (Except.ok none, c2) => (Except.ok "NOT_FOUND", c2)
  | (Except.ok (some n), c2) => (Except.ok (toString n), c2)

/-- Dispatch `interpret` from lib/commands.js, modelled on the paths the claims
exercise: the unknown-verb dispatch (`ERROR` when the verb is not an
Interpreter method) and the full `incr`/`decr` path. The eight other
command methods are kept abstract behind the `other` parameter rather than
given invented semantics; no claim depends on them. `interpret` ignores any
payload data argument. -/
def interpretWith
    (other : String → Cache → Options → Except String String × Cache)
    (now : Int) : Interp := fun c command options _data =>
  match command with
  | none => (Except.ok "ERROR", c)
  | some cmd =>
    if cmd ∉ interpreterCommands then (Except.ok "ERROR", c)
    else if cmd = "incr" then incrDecrCommand c now false (options.getD {})
    else if cmd = "decr" then incrDecrCommand c now true (options.getD {})
    else other cmd c (options.getD {})

/-- An arbitrary stand-in for the Interpreter's other command methods, used
to close universally quantified statements at a concrete instance. -/
def otherCommandsNoop : String → Cache → Options → Except String String × Cache :=
  fun _ c _ => (Except.ok "", c)

/-- A never-expiring record holding the numeric string "10". -/
def numericRecord : Record :=
  { flags := some 0, expiration := 0, value := Value.str "10" }

/-- A never-expiring record holding the non-numeric string "ab". -/
def nonNumericRecord : Record :=
  { flags := some 0, expiration := 0, value := Value.str "ab" }

/-- A record that expired at 1 ms after the epoch. -/
def expiredRecord : Record :=
  { flags := some 0, expiration := 1, value := Value.str "v" }

/-- A never-expiring record holding the string "v". -/
def plainRecord : Record :=
  { flags := some 0, expiration := 0, value := Value.str "v" }

/-- A cache holding a single record, used to close universally quantified
statements at concrete inputs. -/
def singletonCache (key : String) (r : Record) : Cache :=
  { records := [(key, r)] }

/-- Writing a record under a key finds exactly that record again. -/
theorem getProperty_setProperty (l : List (String × Record)) (k : String)
    (r : Record) : getProperty (setProperty l k r) k = some r := by
  induction l with
  | nil => simp [setProperty, getProperty]
  | cons p rest ih =>
    by_cases hp : p.1 = k
    · simp [setProperty, getProperty, hp]
    · simp [setProperty, getProperty, hp, ih]

/-- Claim C1: for a present and valid key, `touch(k, exp)` must return
touched and update the record's `expiration` field to the encoding of
`exp`, leaving value and flags unchanged. The code instead assigns the
never-read `expirationSeconds` object property: at the concrete input
below, `touch "k" 5` at time 1000 returns true, yet the record keeps
`expiration = 0` (never expires) with the new amount parked in
`expirationSeconds`, while the encoding of 5 seconds at time 1000 is 6000. -/
theorem touch_leaves_expiration_field_unchanged :
    ((singletonCache "k" plainRecord).touch "k" (some 5) 1000).1 = true ∧
    ((singletonCache "k" plainRecord).touch "k" (some 5) 1000).2.getRecord "k" =
      some { flags := some 0, expiration := 0, value := Value.str "v",
             expirationSeconds := some 5 } ∧
    (Record.make (Value.str "v") (some 5) (some 0) 1000).expiration = 6000 := by
  decide

/-- Claim C2 counterexample: `append` is in the claimed command set and
`append key1 0 0 5` is a well-formed storage header line, yet the parser in
header mode answers the unknown-command response `ERROR`: `append` has no
entry in `SYNTAXES`, so the line is rejected before the interpreter (here
an arbitrary concrete instance) is ever consulted. -/
theorem append_header_line_answers_error :
    (readLine (interpretWith otherCommandsNoop 0) {} {}
      "append key1 0 0 5").1 = Except.ok "ERROR" := by
  rfl

/-- Claim C2 (amended): the parser's verb table accepts only `get`, `set`,
`add`, `replace`, `delete`, `incr`, `decr`, `touch`, `stats`, `version`
(the entries of `SYNTAXES`) together with the special-cased `quit`; every
header line whose verb is `append`, `prepend`, `flush`, `flush_all` or
`verbosity` is answered with the unknown-command response `ERROR`,
whatever the interpreter, the cache state and the argument words. -/
theorem parser_verb_table (interp : Interp) (c : Cache) (p : ParserState)
    (verb : String) (args : List String)
    (h : verb ∈ ["append", "prepend", "flush", "flush_all", "verbosity"]) :
    (readCommandWords interp c p (verb :: args)).1 = Except.ok "ERROR" ∧
    ∀ v ∈ ["get", "set", "add", "replace", "delete", "incr", "decr",
           "touch", "stats", "version"],
      ( lookupSyntax SYNTAXES v).isSome = true := by
  constructor
  · fin_cases h <;>
      simp [readCommandWords, lookupSyntax, SYNTAXES]
  · decide

/-- Claim C3 counterexample: an expiration input of exactly 2592000 seconds
(the 30-day boundary) is claimed to be relative to now, but the constructor
uses a strict comparison, so at `now = 7` the stored expiration is the
absolute 2592000000 ms rather than the relative 7 + 2592000000. -/
theorem record_boundary_treated_absolute :
    (Record.make (Value.str "v") (some 2592000) (some 0) 7).expiration =
      2592000000 ∧
    (Record.make (Value.str "v") (some 2592000) (some 0) 7).expiration ≠
      7 + 1000 * 2592000 := by
  decide

/-- Claim C3 (amended): for a positive expiration input `s`, the Record
constructor stores `now + 1000·s` exactly when `s < 2592000`
(`MAX_RELATIVE_SECONDS`), and the absolute `1000·s` for every
`s ≥ 2592000`, the boundary included. -/
theorem record_expiration_encoding (v : Value) (f : Option Int)
    (now s : Int) (h : 0 < s) :
    (Record.make v (some s) f now).expiration =
      if s < MAX_RELATIVE_SECONDS then now + 1000 * s else 1000 * s := by
  have hs : s ≠ 0 := by omega
  simp [Record.make, hs]

/-- Witness for `record_expiration_encoding` at the concrete input 3. -/
theorem record_expiration_encoding_witness :
    (0 : Int) < 3 ∧
    (Record.make (Value.str "v") (some 3) (some 0) 10).expiration =
      if (3 : Int) < MAX_RELATIVE_SECONDS then 10 + 1000 * 3 else 1000 * 3 :=
  ⟨by decide, record_expiration_encoding (Value.str "v") (some 0) 10 3 (by decide)⟩

/-- Claim C4: when the purge runs with `maxSizeMb > 0` and the sampled
resident-set size is at or above the limit, further records beyond the
point where usage falls below the limit must be retained. The code samples
the usage once and re-compares the same stale value inside the deletion
loop, so the loop's early return can never fire: at the concrete input
below (limit 1 MB, sample 2 MB, two valid records) every record is
removed. -/
theorem purgeMemory_removes_every_record :
    plainRecord.isValid 0 = true ∧
    (Cache.purgeMemory
      { records := [("k1", plainRecord), ("k2", plainRecord)], maxSizeMb := 1 }
      2 0).records = [] := by
  decide

/-- Claim C5 counterexample: for a key whose stored record has expired,
`getRecord` is claimed to return absent like `get` does; at the concrete
input below (`expiration = 1`, queried at time 5) `get` returns absent but
`getRecord` returns the full expired record. -/
theorem getRecord_returns_expired_record :
    expiredRecord.isValid 5 = false ∧
    (singletonCache "k" expiredRecord).get "k" 5 = none ∧
    (singletonCache "k" expiredRecord).getRecord "k" = some expiredRecord := by
  decide

/-- Claim C5 (amended): `getRecord` is the bare map lookup: it returns
absent exactly when the key is missing from the map, returns the stored
record even when it has expired, and agrees with `get` (returning the
record whose value `get` returns) whenever the key is present and valid. -/
theorem getRecord_lookup_spec (c : Cache) (k : String) (now : Int) :
    (getProperty c.records k = none → c.getRecord k = none) ∧
    (∀ r, getProperty c.records k = some r → c.getRecord k = some r) ∧
    (c.contains k now = true →
      ∃ r, c.getRecord k = some r ∧ c.get k now = some r.value) := by
  refine ⟨fun h => h, fun r h => h, fun hc => ?_⟩
  cases hg : getProperty c.records k with
  | none => simp [Cache.contains, hg] at hc
  | some r =>
    exact ⟨r, hg, by simp [Cache.get, hc, hg]⟩

/-- Witness for `getRecord_lookup_spec` on a one-record cache at time 0. -/
theorem getRecord_lookup_spec_witness :
    (singletonCache "k" plainRecord).contains "k" 0 = true ∧
    ∃ r, (singletonCache "k" plainRecord).getRecord "k" = some r ∧
      (singletonCache "k" plainRecord).get "k" 0 = some r.value :=
  ⟨by decide, (getRecord_lookup_spec (singletonCache "k" plainRecord) "k" 0).2.2
    (by decide)⟩

/-- Claim C6: `decr k x` is literally `incr k (-x)`, and on a present,
valid record holding an integer-parsable value, `incr k x` returns and
stores the old parsed value plus the signed amount, clamped below at 0,
leaving flags and expiration untouched. -/
theorem decr_is_incr_neg_with_clamp (c : Cache) (k : String) (x now : Int)
    (r : Record) (h : getProperty c.records k = some r)
    (hval : r.isValid now = true) (hnum : r.value.isNumber = true) :
    c.decr k x now = c.incr k (-x) now ∧
    (c.incr k x now).1 =
      Except.ok (some (if r.value.parseInt10 + x < 0 then 0
                       else r.value.parseInt10 + x)) ∧
    getProperty ((c.incr k x now).2).records k =
      some { r with value := Value.int (if r.value.parseInt10 + x < 0 then 0
                                        else r.value.parseInt10 + x) } := by
  have hc : c.contains k now = true := by simp [Cache.contains, h, hval]
  refine ⟨rfl, ?_, ?_⟩ <;>
    simp [Cache.incr, hc, h, hnum, getProperty_setProperty]

/-- Witness for `decr_is_incr_neg_with_clamp`: decrementing the stored "10"
by 15 clamps to 0. -/
theorem decr_is_incr_neg_with_clamp_witness :
    getProperty (singletonCache "n" numericRecord).records "n" =
      some numericRecord ∧
    numericRecord.isValid 0 = true ∧
    numericRecord.value.isNumber = true ∧
    ((singletonCache "n" numericRecord).incr "n" (-15) 0).1 =
      Except.ok (some (if numericRecord.value.parseInt10 + (-15) < 0 then 0
                       else numericRecord.value.parseInt10 + (-15))) :=
  ⟨by decide, by decide, by decide,
   (decr_is_incr_neg_with_clamp (singletonCache "n" numericRecord) "n" (-15) 0
     numericRecord (by decide) (by decide) (by decide)).2.1⟩

/-- Claim C7: for an `incr` header line, an absent or expired key answers
`NOT_FOUND`, and a present, valid key whose stored value is not
integer-parsable answers exactly
`CLIENT_ERROR cannot increment or decrement non-numeric value` with the
cache (hence the stored value) and parser state unchanged. Stated for
every abstraction `other` of the interpreter methods the line does not
exercise. -/
theorem incr_wire_responses
    (other : String → Cache → Options → Except String String × Cache)
    (c : Cache) (p : ParserState) (k nword : String) (now : Int) :
    (c.contains k now = false →
      readCommandWords (interpretWith other now) c p ["incr", k, nword] =
        (Except.ok "NOT_FOUND", p, c)) ∧
    (∀ r, getProperty c.records k = some r → r.isValid now = true →
      r.value.isNumber = false →
      readCommandWords (interpretWith other now) c p ["incr", k, nword] =
        (Except.ok "CLIENT_ERROR cannot increment or decrement non-numeric value",
         p, c)) := by
  have hstep : readCommandWords (interpretWith other now) c p ["incr", k, nword]
      = (match interpretWith other now c (some "incr")
              (some { key := some k, value := jsNumber nword }) none with
         | (Except.ok result, c2) => (Except.ok result, p, c2)
         | (Except.error msg, c2) =>
           (Except.ok ("CLIENT_ERROR " ++ msg), p, c2)) := rfl
  constructor
  · intro hc
    rw [hstep]
    simp [interpretWith, interpreterCommands, incrDecrCommand, Cache.incr, hc]
  · intro r h hval hnum
    have hc : c.contains k now = true := by simp [Cache.contains, h, hval]
    rw [hstep]
    simp [interpretWith, interpreterCommands, incrDecrCommand, Cache.incr,
          hc, h, hnum]

/-- Witness for `incr_wire_responses`: `incr k 5` on an empty cache answers
`NOT_FOUND` and leaves everything unchanged. -/
theorem incr_wire_responses_witness :
    Cache.contains {} "k" 0 = false ∧
    readCommandWords (interpretWith otherCommandsNoop 0) {} {}
      ["incr", "k", "5"] = (Except.ok "NOT_FOUND", {}, {}) :=
  ⟨by decide,
   (incr_wire_responses otherCommandsNoop {} {} "k" "5" 0).1 (by decide)⟩

/-- Claim C8: in payload mode, when the CRLF-trimmed final segment is still
longer than the advertised remaining byte count, `readLine` answers
`CLIENT_ERROR bad data chunk`, the parser resets to header state (command
cleared, options cleared, buffered data empty, `bytesRemaining` zero) and
the cache is left untouched — the interpreter is never called. -/
theorem bad_data_chunk_resets (interp : Interp) (c : Cache) (p : ParserState)
    (line : String) (cmd : String) (hp : p.command = some cmd)
    (hfinal : ¬ ((line.length : Int) < p.bytesRemaining))
    (hover : ((rightTrim (rightTrim line '\n') '\r').length : Int) >
      p.bytesRemaining) :
    readLine interp c p line =
      (Except.ok "CLIENT_ERROR bad data chunk", ParserState.reset, c) := by
  simp only [readLine, hp]
  simp [readData, hfinal, hover]

/-- Witness for `bad_data_chunk_resets`: eleven payload bytes against an
advertised count of ten, mirroring the source's own parser test. -/
theorem bad_data_chunk_resets_witness :
    ({ command := some "set", options := some {}, data := "",
       bytesRemaining := 10 } : ParserState).command = some "set" ∧
    ¬ ((("01234567890\r\n".length : Int)) < 10) ∧
    ((rightTrim (rightTrim "01234567890\r\n" '\n') '\r').length : Int) > 10 ∧
    readLine (interpretWith otherCommandsNoop 0) {}
      { command := some "set", options := some {}, data := "",
        bytesRemaining := 10 } "01234567890\r\n" =
      (Except.ok "CLIENT_ERROR bad data chunk", ParserState.reset, {}) :=
  ⟨rfl, by decide, by decide,
   bad_data_chunk_resets (interpretWith otherCommandsNoop 0) {}
     { command := some "set", options := some {}, data := "",
       bytesRemaining := 10 } "01234567890\r\n" "set" rfl (by decide)
     (by decide)⟩

/-- The purge loop on a list whose length is at least the (positive) bound
drops leading entries until the length first falls below the bound. -/
theorem purgeRecordsLoop_drop (l : List (String × Record)) (m : Nat)
    (h0 : 0 < m) (hge : m ≤ l.length) :
    purgeRecordsLoop l m = l.drop (l.length - m + 1) := by
  induction l with
  | nil => simp at hge; omega
  | cons a rest ih =>
    unfold purgeRecordsLoop
    by_cases hrest : rest.length < m
    · have hm : m = rest.length + 1 := by
        simp [List.length_cons] at hge; omega
      simp [hrest, hm]
    · have hle : m ≤ rest.length := by omega
      rw [if_neg hrest, ih hle]
      have harith : (a :: rest).length - m + 1 = (rest.length - m + 1) + 1 := by
        simp [List.length_cons]; omega
      rw [harith, List.drop_succ_cons]

/-- Claim C9: with a positive `maxRecords` bound `M`, a completed
`purgeRecords` pass leaves at most `M` records, and when it starts with
`count ≥ M` it removes records in iteration order exactly until
`count < M` — the retained suffix is the original list with its first
`count − M + 1` entries dropped. -/
theorem purgeRecords_capacity (c : Cache) (hM : 0 < c.maxRecords) :
    (c.purgeRecords).records.length ≤ c.maxRecords ∧
    (c.maxRecords ≤ c.records.length →
      (c.purgeRecords).records =
        c.records.drop (c.records.length - c.maxRecords + 1)) := by
  unfold Cache.purgeRecords
  by_cases h : c.records.length < c.maxRecords
  · rw [if_pos h]
    exact ⟨by omega, fun hc => by omega⟩
  · have hge : c.maxRecords ≤ c.records.length := by omega
    rw [if_neg h]
    refine ⟨?_, fun _ => ?_⟩
    · simp [purgeRecordsLoop_drop _ _ hM hge, List.length_drop]
      omega
    · simp [purgeRecordsLoop_drop _ _ hM hge]

/-- Witness for `purgeRecords_capacity`: three records against a bound of
two are purged down to the last one. -/
theorem purgeRecords_capacity_witness :
    0 < (2 : Nat) ∧
    (Cache.purgeRecords
      { records := [("a", plainRecord), ("b", plainRecord),
                    ("c", plainRecord)], maxRecords := 2 }).records.length ≤ 2 :=
  ⟨by decide,
   (purgeRecords_capacity
     { records := [("a", plainRecord), ("b", plainRecord),
                   ("c", plainRecord)], maxRecords := 2 } (by decide)).1⟩

/-- Claim C10: `delete` on a key whose record is present in the map but
expired answers not-found and removes nothing — the stale entry is still in
the underlying map afterwards — while `flush` does remove it. -/
theorem delete_expired_is_noop (c : Cache) (k : String) (now : Int)
    (r : Record) (h : getProperty c.records k = some r)
    (hexp : r.isValid now = false) :
    c.delete k now = (false, c) ∧
    getProperty ((c.delete k now).2).records k = some r ∧
    getProperty ((c.delete k now).2.flush).2.records k = none := by
  have hc : c.contains k now = false := by simp [Cache.contains, h, hexp]
  have hd : c.delete k now = (false, c) := by simp [Cache.delete, hc]
  refine ⟨hd, by rw [hd]; exact h, by simp [hd, Cache.flush, getProperty]⟩

/-- Witness for `delete_expired_is_noop` on a one-record cache holding an
expired record, queried at time 5. -/
theorem delete_expired_is_noop_witness :
    getProperty (singletonCache "k" expiredRecord).records "k" =
      some expiredRecord ∧
    expiredRecord.isValid 5 = false ∧
    (singletonCache "k" expiredRecord).delete "k" 5 =
      (false, singletonCache "k" expiredRecord) :=
  ⟨by decide, by decide,
   (delete_expired_is_noop (singletonCache "k" expiredRecord) "k" 5
     expiredRecord (by decide) (by decide)).1⟩

/-- Witness for `parser_verb_table` at the verb `append` with no further
argument words. -/
theorem parser_verb_table_witness :
    "append" ∈ ["append", "prepend", "flush", "flush_all", "verbosity"] ∧
    (readCommandWords (interpretWith otherCommandsNoop 0) {} {}
      ["append"]).1 = Except.ok "ERROR" :=
  ⟨by decide,
   (parser_verb_table (interpretWith otherCommandsNoop 0) {} {} "append" []
     (by decide)).1⟩
